import Mathlib

/-!
Verification of the SQS wrapper of `coghost/xaws` (src/sqs.go, src/sqs_opts.go).

The Go code is shallowly embedded: the remote queue service (AWS SDK calls)
is an external collaborator, so each SDK response is an input to the embedded
function.  Pointers that may be nil (`*sqs.ReceiveMessageOutput`) are embedded
as `Option`; dereferencing `none` is a Go nil-pointer panic, modelled by an
explicit crash outcome.  Go `int` loop counters that are provably non-negative
are embedded as `Nat`; the chunk size of `ChunkSlice`, which the code compares
and slices with possibly negative values, is embedded as `Int`.
-/

namespace Xaws

/-- Read statuses of the drain loop, from src/sqs.go (`SqsReadStatus`). -/
inductive SqsReadStatus
  /-- `SqsReadError`: an error occurred during the read operation. -/
  | sqsReadError
  /-- `SqsReadSuccess`: a successful read of a message. -/
  | sqsReadSuccess
  /-- `SqsReadAllConsumed`: all messages in the queue have been consumed. -/
  | sqsReadAllConsumed
  /-- `SqsReadMaximumReached`: the maximum number of requested messages has been reached. -/
  | sqsReadMaximumReached
deriving DecidableEq, Repr

/-- An event published on the drain channel, from src/sqs.go (`SqsResp`). -/
structure SqsResp where
  Status : SqsReadStatus
  Msg : Option String
deriving DecidableEq, Repr

/-- `NewSqsResp` from src/sqs.go. -/
def NewSqsResp (msg : Option String) (status : SqsReadStatus) : SqsResp :=
  { Status := status, Msg := msg }

/-- The shared `failed` response built at the top of `ReadMessages`. -/
def failedResp : SqsResp := NewSqsResp none .sqsReadError

/-- The `SqsReadAllConsumed` response published when the remaining count is zero. -/
def allConsumedResp : SqsResp := NewSqsResp none .sqsReadAllConsumed

/-- The `SqsReadMaximumReached` response published when the quota is hit. -/
def maximumReachedResp : SqsResp := NewSqsResp none .sqsReadMaximumReached

/-- The external responses one iteration of the drain loop consumes:
`remained`/`countErr` are the two values returned by `GetRemainedItems`
(an `int64` and an error), and `recvOut`/`recvErr` are the two values
returned by `GetMsgs` (a nullable `*sqs.ReceiveMessageOutput`, carrying
its `Messages` bodies, and an error). -/
structure IterResp where
  remained : Nat
  countErr : Bool
  recvOut : Option (List String)
  recvErr : Bool
deriving DecidableEq, Repr

/-- How a drain session ends: `finished` models `break`/`break OUTER`,
`crashed` models a Go runtime panic (nil-pointer dereference), and
`running` means the response script ran out while the loop would continue. -/
inductive SessionOutcome
  | finished
  | crashed
  | running
deriving DecidableEq, Repr

/-- The inner `for _, msg := range msgs.Messages` loop of `ReadMessages`
(src/sqs.go lines 557-564): publish each body as `SqsReadSuccess`,
increment `got`, and stop the whole session once
`opt.max != 0 && got >= opt.max`.  Returns the published events, the new
`got`, and whether `break OUTER` was taken. -/
def deliverBatch (maxMsgs : Nat) : Nat → List String → List SqsResp × Nat × Bool
  | got, [] => ([], got, false)
  | got, msg :: rest =>
    let ev := NewSqsResp (some msg) .sqsReadSuccess
    let got' := got + 1
    if maxMsgs ≠ 0 ∧ maxMsgs ≤ got' then
      ([ev, maximumReachedResp], got', true)
    else
      let (evs, g, stop) := deliverBatch maxMsgs got' rest
      (ev :: evs, g, stop)

/-- The `OUTER` loop of `ReadMessages` (src/sqs.go lines 538-565), run
against a script of per-iteration external responses.  Each iteration:
publish `failed` if the count query errored, stop with `SqsReadAllConsumed`
if the remaining count is zero, publish `failed` if the receive call
errored, then range over the receive output's messages — which in Go
dereferences the output pointer, so an absent (`nil`) output crashes. -/
def readLoop (maxMsgs : Nat) : Nat → List IterResp → List SqsResp × SessionOutcome
  | _, [] => ([], .running)
  | got, it :: rest =>
    let evs₁ : List SqsResp := if it.countErr then [failedResp] else []
    if it.remained = 0 then
      (evs₁ ++ [allConsumedResp], .finished)
    else
      let evs₂ : List SqsResp := if it.recvErr then [failedResp] else []
      match it.recvOut with
      | none => (evs₁ ++ evs₂, .crashed)
      | some msgs =>
        let (evs₃, got', stop) := deliverBatch maxMsgs got msgs
        if stop then
          (evs₁ ++ evs₂ ++ evs₃, .finished)
        else
          let (evs₄, out) := readLoop maxMsgs got' rest
          (evs₁ ++ evs₂ ++ evs₃ ++ evs₄, out)

/-- `ReadMessages` from src/sqs.go (lines 531-566): the drain session with a
configured maximum (`WithMax`, default 0 = unbounded), with the channel sends
collected as an event trace. -/
def ReadMessages (maxMsgs : Nat) (script : List IterResp) : List SqsResp × SessionOutcome :=
  readLoop maxMsgs 0 script

/-- The response script generated by an error-free queue holding the given
messages, polled with receive batch size `batchSize`: the count oracle
reports the exact number of remaining messages and each receive call
returns the first `batchSize` remaining messages.  `fuel` bounds the
number of iterations (`queue.length + 1` always suffices when
`batchSize ≥ 1`). -/
def queueScript (batchSize : Nat) : Nat → List String → List IterResp
  | 0, _ => []
  | _ + 1, [] => [{ remained := 0, countErr := false, recvOut := some [], recvErr := false }]
  | fuel + 1, q@(_ :: _) =>
    { remained := q.length, countErr := false, recvOut := some (q.take batchSize), recvErr := false }
      :: queueScript batchSize fuel (q.drop batchSize)

/-- A drain session (`ReadMessages`) run against an error-free queue. -/
def ReadMessagesFromQueue (maxMsgs batchSize : Nat) (queue : List String) :
    List SqsResp × SessionOutcome :=
  ReadMessages maxMsgs (queueScript batchSize (queue.length + 1) queue)

/-- A message body delivered as a `SqsReadSuccess` event. -/
def deliveredResp (msg : String) : SqsResp := NewSqsResp (some msg) .sqsReadSuccess

theorem deliverBatch_all (maxMsgs : Nat) (msgs : List String) :
    ∀ got : Nat, maxMsgs = 0 ∨ got + msgs.length < maxMsgs →
      deliverBatch maxMsgs got msgs = (msgs.map deliveredResp, got + msgs.length, false) := by
  induction msgs with
  | nil => intro got _; simp [deliverBatch]
  | cons m rest ih =>
    intro got h
    have hcond : ¬ (maxMsgs ≠ 0 ∧ maxMsgs ≤ got + 1) := by
      rcases h with h0 | hlt
      · simp [h0]
      · simp only [List.length_cons] at hlt
        intro ⟨_, hle⟩
        omega
    have hrec : maxMsgs = 0 ∨ got + 1 + rest.length < maxMsgs := by
      rcases h with h0 | hlt
      · exact Or.inl h0
      · right; simp only [List.length_cons] at hlt; omega
    simp only [deliverBatch, if_neg hcond, ih (got + 1) hrec]
    simp [deliveredResp, List.length_cons]
    omega

theorem deliverBatch_quota (maxMsgs : Nat) (msgs : List String) :
    ∀ got : Nat, 0 < maxMsgs → got < maxMsgs → maxMsgs ≤ got + msgs.length →
      deliverBatch maxMsgs got msgs =
        ((msgs.take (maxMsgs - got)).map deliveredResp ++ [maximumReachedResp], maxMsgs, true) := by
  induction msgs with
  | nil => intro got hpos hlt hle; simp at hle; omega
  | cons m rest ih =>
    intro got hpos hlt hle
    by_cases hstop : maxMsgs ≤ got + 1
    · have hmax : maxMsgs = got + 1 := by omega
      have htake : maxMsgs - got = 1 := by omega
      simp [deliverBatch, hpos.ne', hstop, htake, deliveredResp, hmax]
    · have hcond : ¬ (maxMsgs ≠ 0 ∧ maxMsgs ≤ got + 1) := by
        intro ⟨_, h⟩; exact hstop h
      have hrec := ih (got + 1) hpos (by omega)
        (by simp only [List.length_cons] at hle; omega)
      simp only [deliverBatch, if_neg hcond, hrec]
      have htake : maxMsgs - got = (maxMsgs - (got + 1)) + 1 := by omega
      simp [htake, List.take_succ_cons, deliveredResp]

theorem readLoop_queue_exhaust (maxMsgs batchSize : Nat) (hb : 1 ≤ batchSize) :
    ∀ fuel : Nat, ∀ q : List String, ∀ got : Nat,
      q.length < fuel → got + q.length < maxMsgs →
      readLoop maxMsgs got (queueScript batchSize fuel q) =
        (q.map deliveredResp ++ [allConsumedResp], .finished) := by
  intro fuel
  induction fuel with
  | zero => intro q got hf _; omega
  | succ fuel ih =>
    intro q got hf hlt
    match q with
    | [] => simp [queueScript, readLoop]
    | x :: xs =>
      have hL : (x :: xs).length = xs.length + 1 := rfl
      have hlen : (x :: xs).length ≠ 0 := by simp
      have hbatchlen : ((x :: xs).take batchSize).length = min batchSize (x :: xs).length :=
        List.length_take ..
      have hdl : ((x :: xs).drop batchSize).length = (x :: xs).length - batchSize :=
        List.length_drop ..
      have hall : maxMsgs = 0 ∨ got + ((x :: xs).take batchSize).length < maxMsgs := by
        right
        rw [hbatchlen]
        omega
      have hrec := ih ((x :: xs).drop batchSize) (got + ((x :: xs).take batchSize).length)
        (by rw [hdl, hL]; rw [hL] at hf; omega)
        (by rw [hbatchlen, hdl]; omega)
      simp only [queueScript, readLoop, if_neg hlen,
        deliverBatch_all maxMsgs ((x :: xs).take batchSize) got hall, hrec]
      simp
      rw [← List.append_assoc, List.take_append_drop]
      simp


theorem readLoop_queue_quota (maxMsgs batchSize : Nat) (hb : 1 ≤ batchSize) (hm : 0 < maxMsgs) :
    ∀ fuel : Nat, ∀ q : List String, ∀ got : Nat,
      q.length < fuel → got < maxMsgs → maxMsgs ≤ got + q.length →
      readLoop maxMsgs got (queueScript batchSize fuel q) =
        ((q.take (maxMsgs - got)).map deliveredResp ++ [maximumReachedResp], .finished) := by
  intro fuel
  induction fuel with
  | zero => intro q got hf _ _; omega
  | succ fuel ih =>
    intro q got hf hlt hle
    match q with
    | [] => simp at hle; omega
    | x :: xs =>
      have hL : (x :: xs).length = xs.length + 1 := rfl
      have hlen : (x :: xs).length ≠ 0 := by simp
      have hbatchlen : ((x :: xs).take batchSize).length = min batchSize (x :: xs).length :=
        List.length_take ..
      have hdl : ((x :: xs).drop batchSize).length = (x :: xs).length - batchSize :=
        List.length_drop ..
      by_cases hq : maxMsgs ≤ got + ((x :: xs).take batchSize).length
      · -- the quota is reached inside this receive batch
        have hbatch := deliverBatch_quota maxMsgs ((x :: xs).take batchSize) got hm hlt hq
        simp only [queueScript, readLoop, if_neg hlen, hbatch]
        have htt : ((x :: xs).take batchSize).take (maxMsgs - got)
            = (x :: xs).take (maxMsgs - got) := by
          rw [List.take_take]
          have : min (maxMsgs - got) batchSize = maxMsgs - got := by
            rw [hbatchlen] at hq; omega
          rw [this]
        simp [htt]
      · -- the whole batch is delivered below the quota and the loop repeats
        have hall : maxMsgs = 0 ∨ got + ((x :: xs).take batchSize).length < maxMsgs := by
          right; omega
        have hblen : ((x :: xs).take batchSize).length = batchSize := by
          rw [hbatchlen]; rw [hbatchlen] at hq; omega
        have hrec := ih ((x :: xs).drop batchSize) (got + ((x :: xs).take batchSize).length)
          (by rw [hdl, hL]; rw [hL] at hf; omega)
          (by omega)
          (by rw [hblen, hdl]; rw [hblen] at hq; omega)
        rw [hblen] at hrec
        have harith : maxMsgs - (got + batchSize) = maxMsgs - got - batchSize := by omega
        rw [harith] at hrec
        simp only [queueScript, readLoop, if_neg hlen,
          deliverBatch_all maxMsgs ((x :: xs).take batchSize) got hall, hblen, hrec]
        have hsplit : (x :: xs).take (maxMsgs - got)
            = (x :: xs).take batchSize ++ ((x :: xs).drop batchSize).take (maxMsgs - got - batchSize) := by
          have hsum : maxMsgs - got = batchSize + (maxMsgs - got - batchSize) := by
            rw [hblen] at hq; omega
          nth_rewrite 1 [hsum]
          rw [List.take_add]
        rw [hsplit]
        simp [List.map_append]

/-- Claim C1: for every drain session started by `ReadMessages` with a configured
maximum `N > 0` against an error-free queue holding at least `N + 5` messages,
the session publishes exactly `N` Delivered (`SqsReadSuccess`) events followed by
exactly one QuotaReached (`SqsReadMaximumReached`) event and then terminates,
publishing no further events — even when the quota is reached in the middle of a
receive batch (any receive batch size `≥ 1`). -/
theorem readMessages_quota_stop (maxMsgs batchSize : Nat) (q : List String)
    (hm : 0 < maxMsgs) (hb : 1 ≤ batchSize) (hq : maxMsgs + 5 ≤ q.length) :
    ReadMessagesFromQueue maxMsgs batchSize q =
      ((q.take maxMsgs).map deliveredResp ++ [maximumReachedResp], .finished) := by
  have h := readLoop_queue_quota maxMsgs batchSize hb hm (q.length + 1) q 0
    (by omega) (by omega) (by omega)
  simpa [ReadMessagesFromQueue, ReadMessages] using h

/-- Witness for C1: a queue of 7 messages drained with maximum 2 and batch size 3
yields exactly the two first messages and then QuotaReached (mid-batch stop). -/
theorem readMessages_quota_stop_witness :
    ReadMessagesFromQueue 2 3 ["m1", "m2", "m3", "m4", "m5", "m6", "m7"] =
      ([deliveredResp "m1", deliveredResp "m2", maximumReachedResp], .finished) := by
  have h := readMessages_quota_stop 2 3 ["m1", "m2", "m3", "m4", "m5", "m6", "m7"]
    (by decide) (by decide) (by decide)
  simpa using h

/-- Claim C2: for every drain session started by `ReadMessages` against an
error-free queue holding exactly `M` messages with `M` strictly less than the
configured maximum, the session publishes `M` Delivered (`SqsReadSuccess`)
events followed by exactly one Exhausted (`SqsReadAllConsumed`) event — which is
published exactly when the remaining-count oracle returns zero — and then
terminates. -/
theorem readMessages_exhaustion_stop (maxMsgs batchSize : Nat) (q : List String)
    (hb : 1 ≤ batchSize) (hq : q.length < maxMsgs) :
    ReadMessagesFromQueue maxMsgs batchSize q =
      (q.map deliveredResp ++ [allConsumedResp], .finished) := by
  have h := readLoop_queue_exhaust maxMsgs batchSize hb (q.length + 1) q 0
    (by omega) (by omega)
  simpa [ReadMessagesFromQueue, ReadMessages] using h

/-- Witness for C2: a queue of 3 messages drained with maximum 5 and batch size 2
delivers all 3 messages and then publishes Exhausted. -/
theorem readMessages_exhaustion_stop_witness :
    ReadMessagesFromQueue 5 2 ["x", "y", "z"] =
      ([deliveredResp "x", deliveredResp "y", deliveredResp "z", allConsumedResp],
        .finished) := by
  have h := readMessages_exhaustion_stop 5 2 ["x", "y", "z"] (by decide) (by decide)
  simpa using h

/-- Counterexample to claim C5: a count query that fails while reporting a zero
remaining count makes `ReadMessages` publish `SqsReadError` and then fall through
to the zero-count branch, publishing `SqsReadAllConsumed` and terminating the
session — it does not publish exactly one Failed event and continue. -/
theorem readMessages_count_error_cex :
    ReadMessages 0 [{ remained := 0, countErr := true, recvOut := some [], recvErr := false }] =
      ([failedResp, allConsumedResp], .finished) := rfl

/-- Amended claim C5: a count-query error makes the drain loop publish exactly one
additional `SqsReadError` event and otherwise leaves the iteration unchanged; the
loop does not terminate on the error itself, but it does terminate (with an extra
`SqsReadAllConsumed` event) whenever the error is accompanied by a zero remaining
count. -/
theorem readMessages_count_error (maxMsgs got : Nat) (it : IterResp) (rest : List IterResp)
    (h : it.countErr = true) :
    readLoop maxMsgs got (it :: rest)
        = (failedResp :: (readLoop maxMsgs got ({ it with countErr := false } :: rest)).1,
            (readLoop maxMsgs got ({ it with countErr := false } :: rest)).2)
      ∧ (it.remained = 0 →
          readLoop maxMsgs got (it :: rest) = ([failedResp, allConsumedResp], .finished)) := by
  obtain ⟨rem, cErr, rOut, rErr⟩ := it
  simp only at h
  subst h
  refine ⟨?_, ?_⟩
  · by_cases hrem : rem = 0
    · simp [readLoop, hrem]
    · cases rOut with
      | none => simp [readLoop, hrem]
      | some msgs =>
        rcases hdb : deliverBatch maxMsgs got msgs with ⟨evs₃, got', stop⟩
        rcases hrl : readLoop maxMsgs got' rest with ⟨evs₄, out⟩
        cases stop <;> simp [readLoop, hrem, hdb, hrl]
  · intro hrem
    simp at hrem
    subst hrem
    simp [readLoop]

/-- Witness for the amended claim C5: one errored count query reporting 4 remaining
messages produces one Failed event in front of the error-free trace of the same
script, and the session keeps running. -/
theorem readMessages_count_error_witness :
    readLoop 0 0 [{ remained := 4, countErr := true, recvOut := some ["m"], recvErr := false }]
        = (failedResp
            :: (readLoop 0 0
                [{ remained := 4, countErr := false, recvOut := some ["m"], recvErr := false }]).1,
            (readLoop 0 0
                [{ remained := 4, countErr := false, recvOut := some ["m"], recvErr := false }]).2) := by
  have h := readMessages_count_error 0 0
    { remained := 4, countErr := true, recvOut := some ["m"], recvErr := false } [] rfl
  exact h.1

/-- Claim C6, the code's actual behavior at the failing input: when the receive
call fails and its output is therefore absent (a nil `*sqs.ReceiveMessageOutput`),
`ReadMessages` publishes the Failed event and then crashes ranging over
`msgs.Messages` — a nil-pointer dereference — instead of proceeding to the next
iteration of the loop. -/
theorem readMessages_receive_error_crash :
    ReadMessages 3 [{ remained := 5, countErr := false, recvOut := none, recvErr := true }] =
      ([failedResp], .crashed) := rfl

/-- Result of running the `ChunkSlice` loop: a normal return, a Go runtime panic
(slicing with a negative bound), or exhaustion of any iteration fuel (the Go
loop never reaches its exit condition). -/
inductive ChunkOutcome
  | ok (chunks : List (List String))
  | panicked
  | fuelOut
deriving DecidableEq, Repr

/-- One iteration per fuel unit of the loop of `ChunkSlice` (src/sqs.go lines
607-625).  The chunk size is a Go `int`, so it is embedded as `Int`; the loop
mutates it (`chunkSize = len(slice)`) when the remaining slice is shorter, and
`slice[0:chunkSize]` panics exactly when the (possibly clamped) chunk size is
negative, since after clamping it never exceeds `len(slice)`. -/
def chunkSliceAux : Nat → List String → Int → ChunkOutcome
  | _, [], _ => .ok []
  | 0, _ :: _, _ => .fuelOut
  | fuel + 1, slice@(_ :: _), chunkSize =>
    let cs : Int := if (slice.length : Int) < chunkSize then (slice.length : Int) else chunkSize
    if cs < 0 then .panicked
    else
      match chunkSliceAux fuel (slice.drop cs.toNat) cs with
      | .ok rest => .ok (slice.take cs.toNat :: rest)
      | r => r

/-- `ChunkSlice` from src/sqs.go: for a positive chunk size the loop runs at most
`slice.length` times, so `slice.length + 1` fuel is exact there. -/
def ChunkSlice (slice : List String) (chunkSize : Int) : ChunkOutcome :=
  chunkSliceAux (slice.length + 1) slice chunkSize

theorem chunkSliceAux_pos (chunkSize : Int) (hk : 0 < chunkSize) :
    ∀ fuel : Nat, ∀ slice : List String, slice.length ≤ fuel →
      ∃ chunks, chunkSliceAux fuel slice chunkSize = .ok chunks
        ∧ chunks.flatten = slice
        ∧ (∀ c ∈ chunks.dropLast, (c.length : Int) = chunkSize)
        ∧ (∀ c ∈ chunks, c ≠ []) := by
  intro fuel
  induction fuel with
  | zero =>
    intro slice hf
    match slice with
    | [] => exact ⟨[], rfl, rfl, by simp, by simp⟩
    | _ :: _ => simp at hf
  | succ fuel ih =>
    intro slice hf
    match slice with
    | [] => exact ⟨[], rfl, rfl, by simp, by simp⟩
    | x :: xs =>
      by_cases hclamp : ((x :: xs).length : Int) < chunkSize
      · -- the final, clamped chunk: the whole remaining slice is taken
        have hcs : (0 : Int) ≤ ((x :: xs).length : Int) := Int.natCast_nonneg _
        have htoNat : (((x :: xs).length : Int)).toNat = (x :: xs).length := Int.toNat_natCast _
        refine ⟨[x :: xs], ?_, by simp, by simp, by simp⟩
        simp only [chunkSliceAux, if_pos hclamp, if_neg (by omega : ¬ ((x :: xs).length : Int) < 0)]
        rw [htoNat]
        simp [List.drop_length, List.take_length, chunkSliceAux]
      · -- an unclamped chunk of exactly `chunkSize` elements, then the loop repeats
        have hle : chunkSize ≤ ((x :: xs).length : Int) := by omega
        have hcsnat : (chunkSize.toNat : Int) = chunkSize := Int.toNat_of_nonneg (by omega)
        have hcs1 : 1 ≤ chunkSize.toNat := by omega
        have hcslen : chunkSize.toNat ≤ (x :: xs).length := by
          have := hle
          omega
        have hrec := ih ((x :: xs).drop chunkSize.toNat)
          (by
            have : ((x :: xs).drop chunkSize.toNat).length = (x :: xs).length - chunkSize.toNat :=
              List.length_drop ..
            simp only [List.length_cons] at hf this ⊢
            omega)
        obtain ⟨chunks, heq, hjoin, hlens, hne⟩ := hrec
        refine ⟨(x :: xs).take chunkSize.toNat :: chunks, ?_, ?_, ?_, ?_⟩
        · simp only [chunkSliceAux, if_neg hclamp, if_neg (by omega : ¬ chunkSize < 0), heq]
        · simp [hjoin, List.take_append_drop]
        · intro c hc
          cases chunks with
          | nil => simp at hc
          | cons c₀ cs =>
            rw [List.dropLast_cons₂] at hc
            rcases List.mem_cons.mp hc with hhead | htail
            · subst hhead
              have : ((x :: xs).take chunkSize.toNat).length = chunkSize.toNat := by
                rw [List.length_take]
                omega
              rw [this, hcsnat]
            · exact hlens c htail
        · intro c hc
          rcases List.mem_cons.mp hc with hhead | htail
          · subst hhead
            intro hnil
            have := congrArg List.length hnil
            rw [List.length_take] at this
            simp at this
            omega
          · exact hne c htail

/-- Claim C3: for every (possibly empty) list of strings and every positive chunk
size `k`, `ChunkSlice` returns normally with chunks whose concatenation equals
the input, in which every chunk except possibly the last has length exactly `k`,
no chunk is empty, and the empty input yields an empty list of chunks. -/
theorem chunkSlice_spec (slice : List String) (chunkSize : Int) (hk : 0 < chunkSize) :
    ∃ chunks, ChunkSlice slice chunkSize = .ok chunks
      ∧ chunks.flatten = slice
      ∧ (∀ c ∈ chunks.dropLast, (c.length : Int) = chunkSize)
      ∧ (∀ c ∈ chunks, c ≠ [])
      ∧ (slice = [] → chunks = []) := by
  obtain ⟨chunks, heq, hflat, hlens, hne⟩ :=
    chunkSliceAux_pos chunkSize hk (slice.length + 1) slice (by omega)
  refine ⟨chunks, heq, hflat, hlens, hne, ?_⟩
  intro hnil
  subst hnil
  have hbase : ChunkSlice ([] : List String) chunkSize = .ok [] := rfl
  have h := hbase.symm.trans heq
  injection h with h
  exact h.symm

/-- Witness for C3: chunking a 3-element list with chunk size 2. -/
theorem chunkSlice_spec_witness :
    ∃ chunks, ChunkSlice ["a", "b", "c"] 2 = .ok chunks
      ∧ chunks.flatten = ["a", "b", "c"]
      ∧ (∀ c ∈ chunks.dropLast, (c.length : Int) = 2)
      ∧ (∀ c ∈ chunks, c ≠ [])
      ∧ (["a", "b", "c"] = ([] : List String) → chunks = []) :=
  chunkSlice_spec ["a", "b", "c"] 2 (by decide)

/-- Counterexample to claim C4: `ChunkSlice` does not clamp a non-positive chunk
size.  On the non-empty input `["a"]`, chunk size 0 makes the loop spin forever
appending empty chunks (it exhausts any fuel) and chunk size -1 panics on
`slice[0:chunkSize]` — in neither case does it return chunks concatenating to
the input. -/
theorem chunkSlice_nonpositive_cex :
    ChunkSlice ["a"] 0 = .fuelOut ∧ ChunkSlice ["a"] (-1) = .panicked :=
  ⟨rfl, rfl⟩

/-- Amended claim C4: for every non-empty list of strings and chunk size `k ≤ 0`,
`ChunkSlice` does not clamp: with `k < 0` the slice operation `slice[0:k]`
panics, and with `k = 0` the loop never terminates (it exhausts every iteration
fuel), so no clamped chunk list is ever returned. -/
theorem chunkSlice_nonpositive (slice : List String) (chunkSize : Int) (hs : slice ≠ []) :
    (chunkSize < 0 → ChunkSlice slice chunkSize = .panicked)
    ∧ (chunkSize = 0 → ∀ fuel, chunkSliceAux fuel slice chunkSize = .fuelOut) := by
  obtain ⟨x, xs, rfl⟩ : ∃ x xs, slice = x :: xs := by
    cases slice with
    | nil => exact absurd rfl hs
    | cons x xs => exact ⟨x, xs, rfl⟩
  have hlen : (0 : Int) ≤ ((x :: xs).length : Int) := Int.natCast_nonneg _
  constructor
  · intro hneg
    have hclamp : ¬ (((x :: xs).length : Int) < chunkSize) := by omega
    show chunkSliceAux ((x :: xs).length + 1) (x :: xs) chunkSize = .panicked
    simp only [chunkSliceAux, if_neg hclamp, if_pos hneg]
  · intro h0
    subst h0
    intro fuel
    induction fuel with
    | zero => rfl
    | succ fuel ih =>
      have hclamp : ¬ (((x :: xs).length : Int) < 0) := by omega
      simp only [chunkSliceAux, if_neg hclamp, lt_irrefl, if_false, Int.toNat_zero,
        List.drop_zero, ih]

/-- Witness for the amended claim C4: chunk size -2 panics on `["a"]`, and chunk
size 0 exhausts a fuel of 5 iterations on `["a"]`. -/
theorem chunkSlice_nonpositive_witness :
    ChunkSlice ["a"] (-2) = .panicked ∧ chunkSliceAux 5 ["a"] 0 = .fuelOut :=
  ⟨(chunkSlice_nonpositive ["a"] (-2) (by decide)).1 (by decide),
    (chunkSlice_nonpositive ["a"] 0 (by decide)).2 rfl 5⟩

/-- Output of one `SendMessageBatch` SDK call, as used by the wrapper: the
`Successful` and `Failed` entry id lists (the code only ever takes their
lengths). -/
structure SendMessageBatchOutput where
  Successful : List Nat
  Failed : List Nat
deriving DecidableEq, Repr

/-- Errors returned by `SendManyMessages`: `sendingBatch` is the
`"error sending batch: %w"` wrapper around a failed `SendMsgBatch` call, and
`sendBatchFailed` is `ErrSendBatchFailed` together with the only datum the Go
error message interpolates — `len(result.Failed)`, the number of failed
messages. -/
inductive SendManyErr
  | sendingBatch
  | sendBatchFailed (failedCount : Nat)
deriving DecidableEq, Repr

/-- `SendMsgBatch` from src/sqs.go (lines 360-383): an empty batch is rejected
locally (`ErrMessageEmpty`), otherwise the batch is submitted to the service,
whose response is the external input `svc`. -/
def SendMsgBatch (svc : List String → Except Unit SendMessageBatchOutput)
    (messages : List String) : Except Unit SendMessageBatchOutput :=
  if messages = [] then .error () else svc messages

/-- The loop of `SendManyMessages` (src/sqs.go lines 291-317), advancing 10
messages at a time; one fuel unit per iteration (`messages.length + 1` always
suffices since every iteration consumes at least one message or returns).
Returns the issued batch-send calls, `totalSent`, and the error if any. -/
def sendManyAux (svc : List String → Except Unit SendMessageBatchOutput) :
    Nat → List String → Nat → List (List String) × Nat × Option SendManyErr
  | _, [], totalSent => ([], totalSent, none)
  | 0, _ :: _, totalSent => ([], totalSent, none)
  | fuel + 1, messages@(_ :: _), totalSent =>
    let batch := messages.take 10
    match SendMsgBatch svc batch with
    | .error _ => ([batch], totalSent, some .sendingBatch)
    | .ok result =>
      let totalSent' := totalSent + result.Successful.length
      if 0 < result.Failed.length then
        ([batch], totalSent', some (.sendBatchFailed result.Failed.length))
      else
        let r := sendManyAux svc fuel (messages.drop 10) totalSent'
        (batch :: r.1, r.2.1, r.2.2)

/-- `SendManyMessages` from src/sqs.go: split the messages into batches of at
most 10 and send them in order, stopping at the first call error or partial
failure. -/
def SendManyMessages (svc : List String → Except Unit SendMessageBatchOutput)
    (messages : List String) : List (List String) × Nat × Option SendManyErr :=
  sendManyAux svc (messages.length + 1) messages 0

/-- The sequence of 10-element batches the loop of `SendManyMessages` slices
from its input (`messages[i:end]` for `i = 0, 10, 20, ...`). -/
def tenChunksAux : Nat → List String → List (List String)
  | _, [] => []
  | 0, _ :: _ => []
  | fuel + 1, messages@(_ :: _) => messages.take 10 :: tenChunksAux fuel (messages.drop 10)

/-- The batches `SendManyMessages` slices from `messages`. -/
def tenChunks (messages : List String) : List (List String) :=
  tenChunksAux (messages.length + 1) messages

theorem sendManyAux_step (svc : List String → Except Unit SendMessageBatchOutput)
    (fuel : Nat) (messages : List String) (h : messages ≠ []) (total : Nat) :
    sendManyAux svc (fuel + 1) messages total =
      (match SendMsgBatch svc (messages.take 10) with
        | .error _ => ([messages.take 10], total, some .sendingBatch)
        | .ok result =>
          if 0 < result.Failed.length then
            ([messages.take 10], total + result.Successful.length,
              some (.sendBatchFailed result.Failed.length))
          else
            let r := sendManyAux svc fuel (messages.drop 10) (total + result.Successful.length)
            (messages.take 10 :: r.1, r.2.1, r.2.2)) := by
  cases messages with
  | nil => exact absurd rfl h
  | cons x xs => rfl

theorem tenChunksAux_step (fuel : Nat) (messages : List String) (h : messages ≠ []) :
    tenChunksAux (fuel + 1) messages = messages.take 10 :: tenChunksAux fuel (messages.drop 10) := by
  cases messages with
  | nil => exact absurd rfl h
  | cons x xs => rfl

theorem sendManyAux_all_success (svc : List String → Except Unit SendMessageBatchOutput)
    (hsvc : ∀ b, b ≠ [] →
      ∃ out, svc b = .ok out ∧ out.Successful.length = b.length ∧ out.Failed = []) :
    ∀ fuel : Nat, ∀ messages : List String, messages.length ≤ fuel → ∀ total : Nat,
      sendManyAux svc fuel messages total =
        (tenChunksAux fuel messages, total + messages.length, none) := by
  intro fuel
  induction fuel with
  | zero =>
    intro messages hf total
    match messages with
    | [] => rfl
    | _ :: _ => simp at hf
  | succ fuel ih =>
    intro messages hf total
    match messages with
    | [] => rfl
    | x :: xs =>
      have hne : (x :: xs) ≠ [] := by simp
      have htne : (x :: xs).take 10 ≠ [] := by simp
      obtain ⟨out, hout, hslen, hfail⟩ := hsvc ((x :: xs).take 10) htne
      have htlen : ((x :: xs).take 10).length = min 10 (x :: xs).length := List.length_take ..
      have hdlen : ((x :: xs).drop 10).length = (x :: xs).length - 10 := List.length_drop ..
      have hrec := ih ((x :: xs).drop 10) (by
        rw [hdlen]
        simp only [List.length_cons] at hf ⊢
        omega) (total + out.Successful.length)
      rw [sendManyAux_step svc fuel (x :: xs) hne total, tenChunksAux_step fuel (x :: xs) hne]
      rw [SendMsgBatch, if_neg htne, hout]
      simp only [hfail, List.length_nil, lt_irrefl, if_false, hrec]
      have : total + out.Successful.length + ((x :: xs).drop 10).length
          = total + (x :: xs).length := by
        rw [hslen, htlen, hdlen]
        have : min 10 (x :: xs).length ≤ (x :: xs).length := Nat.min_le_right ..
        omega
      rw [this]

theorem tenChunksAux_flatten :
    ∀ fuel : Nat, ∀ messages : List String, messages.length ≤ fuel →
      (tenChunksAux fuel messages).flatten = messages := by
  intro fuel
  induction fuel with
  | zero =>
    intro messages hf
    match messages with
    | [] => rfl
    | _ :: _ => simp at hf
  | succ fuel ih =>
    intro messages hf
    match messages with
    | [] => rfl
    | x :: xs =>
      have hne : (x :: xs) ≠ [] := by simp
      have hdlen : ((x :: xs).drop 10).length = (x :: xs).length - 10 := List.length_drop ..
      rw [tenChunksAux_step fuel (x :: xs) hne]
      simp only [List.flatten_cons,
        ih ((x :: xs).drop 10) (by rw [hdlen]; simp only [List.length_cons] at hf ⊢; omega)]
      exact List.take_append_drop ..

theorem tenChunksAux_sizes :
    ∀ fuel : Nat, ∀ messages : List String,
      ∀ c ∈ tenChunksAux fuel messages, c ≠ [] ∧ c.length ≤ 10 := by
  intro fuel
  induction fuel with
  | zero =>
    intro messages c hc
    match messages with
    | [] => simp [tenChunksAux] at hc
    | _ :: _ => simp [tenChunksAux] at hc
  | succ fuel ih =>
    intro messages c hc
    match messages with
    | [] => simp [tenChunksAux] at hc
    | x :: xs =>
      rw [tenChunksAux_step fuel (x :: xs) (by simp)] at hc
      rcases List.mem_cons.mp hc with hhead | htail
      · subst hhead
        constructor
        · simp
        · rw [List.length_take]; omega
      · exact ih ((x :: xs).drop 10) c htail

theorem tenChunksAux_count :
    ∀ fuel : Nat, ∀ messages : List String, messages.length ≤ fuel →
      (tenChunksAux fuel messages).length = (messages.length + 9) / 10 := by
  intro fuel
  induction fuel with
  | zero =>
    intro messages hf
    match messages with
    | [] => rfl
    | _ :: _ => simp at hf
  | succ fuel ih =>
    intro messages hf
    match messages with
    | [] => rfl
    | x :: xs =>
      have hdlen : ((x :: xs).drop 10).length = (x :: xs).length - 10 := List.length_drop ..
      rw [tenChunksAux_step fuel (x :: xs) (by simp), List.length_cons,
        ih ((x :: xs).drop 10) (by rw [hdlen]; simp only [List.length_cons] at hf ⊢; omega),
        hdlen]
      have hpos : 1 ≤ (x :: xs).length := by simp
      omega

theorem tenChunks_len23 (messages : List String) (h : messages.length = 23) :
    (tenChunks messages).map List.length = [10, 10, 3] := by
  have h1 : messages ≠ [] := by
    intro hh; rw [hh] at h; simp at h
  have hd1 : (messages.drop 10).length = 13 := by
    rw [List.length_drop, h]
  have h2 : messages.drop 10 ≠ [] := by
    intro hh; rw [hh] at hd1; simp at hd1
  have hd2 : ((messages.drop 10).drop 10).length = 3 := by
    rw [List.length_drop, hd1]
  have h3 : (messages.drop 10).drop 10 ≠ [] := by
    intro hh; rw [hh] at hd2; simp at hd2
  have hd3 : (((messages.drop 10).drop 10).drop 10).length = 0 := by
    rw [List.length_drop, hd2]
  have hnil3 : ((messages.drop 10).drop 10).drop 10 = [] :=
    List.eq_nil_of_length_eq_zero hd3
  rw [tenChunks, h, tenChunksAux_step 23 messages h1, tenChunksAux_step 22 _ h2,
    tenChunksAux_step 21 _ h3, hnil3]
  simp only [tenChunksAux, List.map_cons, List.map_nil, List.length_take, hd1, hd2, h]
  decide

/-- Claim C7: for every list of messages, when the service accepts every message
of every batch, `SendManyMessages` issues one batch-send call per 10-message
slice of the input in order (so ceil(n/10) calls, each non-empty and of size at
most 10, whose concatenation is the input), returns the total `n` with no error;
in particular 23 messages are sent as exactly 3 calls of sizes 10, 10 and 3. -/
theorem sendManyMessages_all_success (svc : List String → Except Unit SendMessageBatchOutput)
    (hsvc : ∀ b, b ≠ [] →
      ∃ out, svc b = .ok out ∧ out.Successful.length = b.length ∧ out.Failed = [])
    (messages : List String) :
    SendManyMessages svc messages = (tenChunks messages, messages.length, none)
      ∧ (tenChunks messages).flatten = messages
      ∧ (∀ c ∈ tenChunks messages, c ≠ [] ∧ c.length ≤ 10)
      ∧ (tenChunks messages).length = (messages.length + 9) / 10
      ∧ (messages.length = 23 → (tenChunks messages).map List.length = [10, 10, 3]) := by
  refine ⟨?_, tenChunksAux_flatten (messages.length + 1) messages (by omega),
    fun c hc => tenChunksAux_sizes (messages.length + 1) messages c hc,
    tenChunksAux_count (messages.length + 1) messages (by omega),
    fun h => tenChunks_len23 messages h⟩
  have h := sendManyAux_all_success svc hsvc (messages.length + 1) messages (by omega) 0
  simpa [SendManyMessages, tenChunks] using h

/-- Witness for C7: 23 concrete messages sent against a service that accepts
every entry of every batch. -/
theorem sendManyMessages_all_success_witness :
    (SendManyMessages (fun b => .ok ⟨List.range b.length, []⟩)
        ["b01", "b02", "b03", "b04", "b05", "b06", "b07", "b08", "b09", "b10",
          "b11", "b12", "b13", "b14", "b15", "b16", "b17", "b18", "b19", "b20",
          "b21", "b22", "b23"]
      = (tenChunks
          ["b01", "b02", "b03", "b04", "b05", "b06", "b07", "b08", "b09", "b10",
            "b11", "b12", "b13", "b14", "b15", "b16", "b17", "b18", "b19", "b20",
            "b21", "b22", "b23"], 23, none))
    ∧ (tenChunks
        ["b01", "b02", "b03", "b04", "b05", "b06", "b07", "b08", "b09", "b10",
          "b11", "b12", "b13", "b14", "b15", "b16", "b17", "b18", "b19", "b20",
          "b21", "b22", "b23"]).map List.length = [10, 10, 3] := by
  have h := sendManyMessages_all_success (fun b => .ok ⟨List.range b.length, []⟩)
    (fun b _ => ⟨⟨List.range b.length, []⟩, rfl, by simp, rfl⟩)
    ["b01", "b02", "b03", "b04", "b05", "b06", "b07", "b08", "b09", "b10",
      "b11", "b12", "b13", "b14", "b15", "b16", "b17", "b18", "b19", "b20",
      "b21", "b22", "b23"]
  exact ⟨h.1, h.2.2.2.2 rfl⟩

/-- Counterexample to claim C8: the error `SendManyMessages` returns on a partial
batch failure does not identify the failed entries.  Two services that reject
different entries of the same 10-message batch (ids 9 and 10 versus ids 3 and 4)
produce identical results — total 8 and an error carrying only the failed count
2 — so no caller can recover the failed indices/ids from the returned error. -/
theorem sendManyMessages_partial_failure_cex :
    SendManyMessages (fun _ => .ok ⟨[1, 2, 3, 4, 5, 6, 7, 8], [9, 10]⟩)
        ["p01", "p02", "p03", "p04", "p05", "p06", "p07", "p08", "p09", "p10"]
      = SendManyMessages (fun _ => .ok ⟨[1, 2, 5, 6, 7, 8, 9, 10], [3, 4]⟩)
        ["p01", "p02", "p03", "p04", "p05", "p06", "p07", "p08", "p09", "p10"]
    ∧ (⟨[1, 2, 3, 4, 5, 6, 7, 8], [9, 10]⟩ : SendMessageBatchOutput)
        ≠ ⟨[1, 2, 5, 6, 7, 8, 9, 10], [3, 4]⟩
    ∧ SendManyMessages (fun _ => .ok ⟨[1, 2, 3, 4, 5, 6, 7, 8], [9, 10]⟩)
        ["p01", "p02", "p03", "p04", "p05", "p06", "p07", "p08", "p09", "p10"]
      = ([["p01", "p02", "p03", "p04", "p05", "p06", "p07", "p08", "p09", "p10"]], 8,
          some (.sendBatchFailed 2)) :=
  ⟨rfl, by decide, rfl⟩

/-- Amended claim C8: when the service rejects some entries of a chunk,
`SendManyMessages` returns the count of messages accepted so far (including the
accepted part of the failing chunk and all earlier chunks, which are not rolled
back), together with an `ErrSendBatchFailed` error that carries only the number
of failed entries — not their indices/ids — and stops submitting further
chunks. -/
theorem sendManyMessages_partial_failure (svc : List String → Except Unit SendMessageBatchOutput)
    (messages : List String) (out1 out2 : SendMessageBatchOutput)
    (hlen : messages.length = 23)
    (h1 : svc (messages.take 10) = .ok out1) (h1f : out1.Failed = [])
    (h2 : svc ((messages.drop 10).take 10) = .ok out2) (h2f : out2.Failed ≠ []) :
    SendManyMessages svc messages =
      ([messages.take 10, (messages.drop 10).take 10],
        out1.Successful.length + out2.Successful.length,
        some (.sendBatchFailed out2.Failed.length)) := by
  have h1ne : messages ≠ [] := by
    intro hh; rw [hh] at hlen; simp at hlen
  have htake1 : messages.take 10 ≠ [] := by
    intro hh
    have := congrArg List.length hh
    rw [List.length_take, hlen] at this
    simp at this
  have hd1 : (messages.drop 10).length = 13 := by
    rw [List.length_drop, hlen]
  have h2ne : messages.drop 10 ≠ [] := by
    intro hh; rw [hh] at hd1; simp at hd1
  have htake2 : (messages.drop 10).take 10 ≠ [] := by
    intro hh
    have := congrArg List.length hh
    rw [List.length_take, hd1] at this
    simp at this
  have hfailpos : 0 < out2.Failed.length := by
    cases hof : out2.Failed with
    | nil => exact absurd hof h2f
    | cons a l => simp [hof]
  rw [SendManyMessages, hlen, sendManyAux_step svc 23 messages h1ne 0,
    SendMsgBatch, if_neg htake1, h1]
  simp only [h1f, List.length_nil, lt_irrefl, if_false]
  rw [sendManyAux_step svc 22 (messages.drop 10) h2ne (0 + out1.Successful.length),
    SendMsgBatch, if_neg htake2, h2]
  simp only [if_pos hfailpos]
  simp

/-- Witness for the amended claim C8: 23 concrete messages against a service that
accepts the whole first batch and rejects entries 8 and 9 of the second batch:
the result is 2 issued calls, total 18, and an error carrying the count 2. -/
theorem sendManyMessages_partial_failure_witness :
    SendManyMessages
        (fun b => if b.head? = some "c01" then .ok ⟨[0, 1, 2, 3, 4, 5, 6, 7, 8, 9], []⟩
          else .ok ⟨[0, 1, 2, 3, 4, 5, 6, 7], [8, 9]⟩)
        ["c01", "c02", "c03", "c04", "c05", "c06", "c07", "c08", "c09", "c10",
          "c11", "c12", "c13", "c14", "c15", "c16", "c17", "c18", "c19", "c20",
          "c21", "c22", "c23"]
      = ([["c01", "c02", "c03", "c04", "c05", "c06", "c07", "c08", "c09", "c10"],
          ["c11", "c12", "c13", "c14", "c15", "c16", "c17", "c18", "c19", "c20"]],
          18, some (.sendBatchFailed 2)) := by
  have h := sendManyMessages_partial_failure
    (fun b => if b.head? = some "c01" then .ok ⟨[0, 1, 2, 3, 4, 5, 6, 7, 8, 9], []⟩
      else .ok ⟨[0, 1, 2, 3, 4, 5, 6, 7], [8, 9]⟩)
    ["c01", "c02", "c03", "c04", "c05", "c06", "c07", "c08", "c09", "c10",
      "c11", "c12", "c13", "c14", "c15", "c16", "c17", "c18", "c19", "c20",
      "c21", "c22", "c23"]
    ⟨[0, 1, 2, 3, 4, 5, 6, 7, 8, 9], []⟩ ⟨[0, 1, 2, 3, 4, 5, 6, 7], [8, 9]⟩
    (by decide) rfl rfl rfl (by decide)
  simpa using h

/-- The queue-handle part of the `SqsClient` state (src/sqs.go lines 40-41): the
two fields written by `SetQueueURL`. -/
structure SqsClientHandle where
  QueueName : String
  QueueURL : String
deriving DecidableEq, Repr

/-- `GetQueueURL` from src/sqs.go (lines 166-173): on a successful lookup it
returns the resolved URL without error; on a failed lookup it returns the empty
string and the error.  The name resolution service is the external input
`svc`. -/
def GetQueueURL (svc : String → Option String) (name : String) : String × Bool :=
  match svc name with
  | some url => (url, false)
  | none => ("", true)

/-- `SetQueueURL` from src/sqs.go (lines 72-79): an empty name is ignored;
otherwise both `QueueName` and `QueueURL` are overwritten (the lookup error is
discarded). -/
def SetQueueURL (svc : String → Option String) (w : SqsClientHandle) (name : String) :
    SqsClientHandle :=
  if name = "" then w
  else { QueueName := name, QueueURL := (GetQueueURL svc name).1 }

/-- `CreateQueue` from src/sqs.go (lines 81-93), restricted to its effect on the
queue handle: after asking the service to create the queue it calls
`SetQueueURL name`. -/
def CreateQueue (svc : String → Option String) (w : SqsClientHandle) (name : String) :
    SqsClientHandle :=
  SetQueueURL svc w name

/-- `NewSqsClient` from src/sqs.go (lines 47-61), restricted to the queue
handle: the name is stored and `SetQueueURL` resolves the URL. -/
def NewSqsClient (svc : String → Option String) (queue : String) : SqsClientHandle :=
  SetQueueURL svc { QueueName := queue, QueueURL := "" } queue

/-- Counterexample to claim C9: the queue handle is not immutable after
construction.  On a client constructed for queue `q1` (URL `url1`), the exported
`CreateQueue "q2"` (which calls the exported `SetQueueURL`) overwrites both
`QueueName` and `QueueURL`. -/
theorem queueHandle_mutation_cex :
    CreateQueue (fun _ => some "url2")
        (NewSqsClient (fun _ => some "url1") "q1") "q2"
      ≠ NewSqsClient (fun _ => some "url1") "q1" := by
  decide

/-- Amended claim C9: the queue handle fields are set at construction but are
not immutable afterwards: the exported `SetQueueURL` — and `CreateQueue`, which
calls it — overwrites both `QueueName` and `QueueURL` whenever it is given a
non-empty name, regardless of the prior handle state; only an empty name leaves
the handle unchanged. -/
theorem queueHandle_mutation (svc : String → Option String) (w : SqsClientHandle)
    (name : String) (h : name ≠ "") :
    CreateQueue svc w name = { QueueName := name, QueueURL := (GetQueueURL svc name).1 }
      ∧ SetQueueURL svc w name = { QueueName := name, QueueURL := (GetQueueURL svc name).1 }
      ∧ SetQueueURL svc w "" = w := by
  refine ⟨?_, ?_, by simp [SetQueueURL]⟩ <;>
    simp [CreateQueue, SetQueueURL, h]

/-- Witness for the amended claim C9: setting queue `q3` on the handle
`(q1, url1)` yields the handle `(q3, url3)`. -/
theorem queueHandle_mutation_witness :
    CreateQueue (fun _ => some "url3") ⟨"q1", "url1"⟩ "q3" = ⟨"q3", "url3"⟩
      ∧ SetQueueURL (fun _ => some "url3") ⟨"q1", "url1"⟩ "q3" = ⟨"q3", "url3"⟩
      ∧ SetQueueURL (fun _ => some "url3") ⟨"q1", "url1"⟩ "" = ⟨"q1", "url1"⟩ := by
  have h := queueHandle_mutation (fun _ => some "url3") ⟨"q1", "url1"⟩ "q3" (by decide)
  exact h

/-- Errors of the single-message send path, from src/sqs.go: the three local
validation sentinels plus an opaque service-side error. -/
inductive SendMsgErr
  | errEmptyMessageBody
  | errInvalidUTF8
  | errMessageTooLong
  | serviceErr
deriving DecidableEq, Repr

/-- `SendMsg` from src/sqs.go (lines 213-240).  A Go string is a byte sequence,
embedded as `List Nat`; `utf8.ValidString` is Go standard library code, treated
as the external predicate `valid`; the queue service response is the external
input `svc`.  Returns the Go pair (nullable output, nullable error) together
with the list of send calls issued to the service. -/
def SendMsg (valid : List Nat → Bool) (svc : List Nat → Option Nat × Option SendMsgErr)
    (message : List Nat) : (Option Nat × Option SendMsgErr) × List (List Nat) :=
  if message = [] then ((none, some .errEmptyMessageBody), [])
  else if ¬ valid message then ((none, some .errInvalidUTF8), [])
  else if 256 * 1024 < message.length then ((none, some .errMessageTooLong), [])
  else (svc message, [message])

/-- Claim C10: `SendMsg` validates locally before contacting the service, with
the precedence empty body → invalid UTF-8 → over-long (more than 256*1024
bytes); in each failing case the output is nil, the respective sentinel error is
returned and no send call is issued; only otherwise is the message forwarded to
the service. -/
theorem sendMsg_validation (valid : List Nat → Bool)
    (svc : List Nat → Option Nat × Option SendMsgErr) (message : List Nat) :
    (message = [] → SendMsg valid svc message = ((none, some .errEmptyMessageBody), []))
      ∧ (message ≠ [] → valid message = false →
          SendMsg valid svc message = ((none, some .errInvalidUTF8), []))
      ∧ (message ≠ [] → valid message = true → 256 * 1024 < message.length →
          SendMsg valid svc message = ((none, some .errMessageTooLong), []))
      ∧ (message ≠ [] → valid message = true → message.length ≤ 256 * 1024 →
          SendMsg valid svc message = (svc message, [message])) := by
  refine ⟨?_, ?_, ?_, ?_⟩
  · intro h; simp [SendMsg, h]
  · intro h hv; simp [SendMsg, h, hv]
  · intro h hv hl; simp [SendMsg, h, hv, hl]
  · intro h hv hl
    simp [SendMsg, h, hv]
    omega

/-- Witness for C10: the four branches at concrete messages — the empty message,
an invalid one-byte message, a valid message of 262145 bytes, and a valid short
message that is forwarded to the service. -/
theorem sendMsg_validation_witness :
    SendMsg (fun _ => true) (fun _ => (some 7, none)) []
        = ((none, some .errEmptyMessageBody), [])
      ∧ SendMsg (fun _ => false) (fun _ => (some 7, none)) [255]
        = ((none, some .errInvalidUTF8), [])
      ∧ SendMsg (fun _ => true) (fun _ => (some 7, none)) (List.replicate (256 * 1024 + 1) 65)
        = ((none, some .errMessageTooLong), [])
      ∧ SendMsg (fun _ => true) (fun _ => (some 7, none)) [104, 105]
        = ((some 7, none), [[104, 105]]) := by
  refine ⟨(sendMsg_validation (fun _ => true) (fun _ => (some 7, none)) []).1 rfl,
    (sendMsg_validation (fun _ => false) (fun _ => (some 7, none)) [255]).2.1 (by decide) rfl,
    (sendMsg_validation (fun _ => true) (fun _ => (some 7, none))
        (List.replicate (256 * 1024 + 1) 65)).2.2.1 ?_ rfl ?_,
    (sendMsg_validation (fun _ => true) (fun _ => (some 7, none)) [104, 105]).2.2.2
      (by decide) rfl (by decide)⟩
  · intro h
    have := congrArg List.length h
    rw [List.length_replicate] at this
    simp at this
  · rw [List.length_replicate]
    omega

end Xaws
